import Mathlib

/-!
# Ember spark: HeartbeatService

A shallow embedding of `src/libs/spark/src/HeartbeatService.cpp` and the
properties of its ping/pong protocol, peer table and timer.

The object's fields (`peers_`, `timer_`, the two constants) are a record; the
calls it makes on its collaborators (`service_->send`, the warning log
statements, the operations on `timer_`) are appended, in program order, to a
list of `Call`s carried in the same record.  The steady clock is read by the
caller and passed in as `time`.
-/

namespace Ember.Spark

/-! ## Machine integers -/

/-- Conversion of a signed 64-bit count to `std::uint64_t` (value modulo 2^64). -/
def to_uint64 (x : Int) : Nat := (x % 2 ^ 64).toNat

/-- Conversion of an unsigned 64-bit value to the signed 64-bit representation of
`std::chrono::milliseconds` (two's complement reinterpretation). -/
def to_int64 (x : Nat) : Int :=
  if x % 2 ^ 64 < 2 ^ 63 then ((x % 2 ^ 64 : Nat) : Int) else ((x % 2 ^ 64 : Nat) : Int) - 2 ^ 64

/-- Subtraction of two `std::uint64_t` values, wrapping modulo 2^64. -/
def sub_uint64 (a b : Nat) : Nat := (a % 2 ^ 64 + 2 ^ 64 - b % 2 ^ 64) % 2 ^ 64

/-! ## Data model -/

/-- Modelled from the spec: `Link.h` is not among the sources.  A Link is the
identity of a peer: a 128-bit unique identifier (`uuid`), a human-readable
`description`, and the transport handle used to send to it (`net`). -/
structure Link where
  uuid : Nat
  description : String
  net : Nat
deriving DecidableEq, Repr

/-- Modelled from the spec: the equality operator of `Link` lives in the missing
`Link.h`; the data model states that two Links are equal iff their identifiers
match. -/
def Link.equal (lhs rhs : Link) : Bool := lhs.uuid == rhs.uuid

namespace messaging

/-- The `messaging::Service` enumeration; only `Core` is named by this file. -/
inductive Service where
  | Core
  | Other (code : Nat)
deriving DecidableEq, Repr

/-- The `messaging::Data` union discriminant (the envelope's payload kind). -/
inductive Data where
  | NONE
  | Ping
  | Pong
  | Other (code : Nat)
deriving DecidableEq, Repr

/-- The table a `MessageRoot` carries as its payload.  `Ping` and `Pong` each hold
one unsigned 64-bit `timestamp`; `Other` stands for any other table. -/
inductive Payload where
  | Ping (timestamp : Nat)
  | Pong (timestamp : Nat)
  | Other
deriving DecidableEq, Repr

/-- The `timestamp()` accessor reached through `static_cast<const Ping*>` or
`static_cast<const Pong*>` on `message->data()`.  The cast does not check the
variant: it reads the unsigned 64-bit field in the first slot of the table, which
is where both `Ping` and `Pong` keep their timestamp, and yields the field default
0 when the table has no such slot. -/
def Payload.timestamp : Payload → Nat
  | .Ping t => t % 2 ^ 64
  | .Pong t => t % 2 ^ 64
  | .Other => 0

/-- The discriminant that belongs to a payload variant. -/
def Payload.kind : Payload → Option Data
  | .Ping _ => some Data.Ping
  | .Pong _ => some Data.Pong
  | .Other => none

/-- Modelled from the spec: `Core_generated.h` is not among the sources; the
envelope has a source service, two reserved 16-bit fields (`opcode`,
`correlation`), the payload discriminant and the payload. -/
structure MessageRoot where
  service : Service
  opcode : Nat
  correlation : Nat
  data_type : Data
  data : Payload
deriving DecidableEq, Repr

/-- The envelope invariant: the discriminant matches the variant present. -/
def MessageRoot.well_formed (m : MessageRoot) : Bool :=
  decide (m.data.kind = some m.data_type)

/-- The builder `messaging::CreatePing(fbb, timestamp)`; the argument is a
`uint64_t`. -/
def CreatePing (timestamp : Nat) : Payload := Payload.Ping (timestamp % 2 ^ 64)

/-- The builder `messaging::CreatePong(fbb, timestamp)`; the argument is a
`uint64_t`. -/
def CreatePong (timestamp : Nat) : Payload := Payload.Pong (timestamp % 2 ^ 64)

/-- The builder `messaging::CreateMessageRoot(fbb, service, 0, 0, data_type, data)`;
the two reserved arguments are 16-bit. -/
def CreateMessageRoot (service : Service) (opcode correlation : Nat) (data_type : Data)
    (data : Payload) : MessageRoot :=
  { service := service, opcode := opcode % 2 ^ 16, correlation := correlation % 2 ^ 16,
    data_type := data_type, data := data }

end messaging

open messaging

/-- A `boost::system::error_code`; it tests true in `if(ec)` iff its value is not 0. -/
structure error_code where
  value : Int
deriving DecidableEq, Repr

/-- The boolean test `if(ec)`. -/
def error_code.is_set (ec : error_code) : Bool := ec.value != 0

/-- The calls the service makes on its collaborators, in program order. -/
inductive Call where
  /-- The call `service_->send(link, fbb)` with the finished envelope. -/
  | send (link : Link) (message : MessageRoot)
  /-- The warning statement of the default branch of `on_message`, with the
  identifier it prints. -/
  | warn_unhandled (uuid : Nat)
  /-- The warning statement of `handle_pong`, with the description and identifier it
  prints.  Whether the logger then emits the record is decided by the logger's own
  severity and filter settings, which are not part of this file. -/
  | warn_high_latency (description : String) (uuid : Nat)
  /-- The call `timer_.expires_from_now(PING_FREQUENCY)`. -/
  | expires_from_now (period : Nat)
  /-- The call `timer_.async_wait(...)` binding `trigger_pings`. -/
  | async_wait
  /-- The call `timer_.cancel()`. -/
  | cancel
deriving DecidableEq, Repr

/-- The state of the asio waitable timer `timer_` as far as the service can
observe it: `pending` counts the asynchronous waits outstanding on the timer,
`aborted` the completion handlers of cancelled waits that are queued to run with
`operation_aborted`, `expired` the handlers of waits whose deadline passed and
that are queued to run with a clear error code. -/
structure Timer where
  pending : Nat
  aborted : Nat
  expired : Nat
deriving DecidableEq, Repr

/-- The operation `timer_.cancel()`: every outstanding wait is completed with
`operation_aborted`; its handler is queued, not run. -/
def Timer.cancel (t : Timer) : Timer :=
  { pending := 0, aborted := t.aborted + t.pending, expired := t.expired }

/-- The operation `timer_.expires_from_now(d)`: sets a new expiry, which cancels
every outstanding wait exactly as `cancel` does. -/
def Timer.expires_from_now (t : Timer) : Timer := t.cancel

/-- The operation `timer_.async_wait(handler)`: one more wait is outstanding. -/
def Timer.async_wait (t : Timer) : Timer :=
  { t with pending := t.pending + 1 }

/-- The deadline passes: every outstanding wait completes with a clear error code
and its handler is queued. -/
def Timer.expire (t : Timer) : Timer :=
  { pending := 0, aborted := t.aborted, expired := t.expired + t.pending }

/-- The `HeartbeatService` object together with the trace of calls it has made.
`PING_FREQUENCY` and `LATENCY_WARN_THRESHOLD` (milliseconds) are the constants of
the missing header, taken as parameters; `peers_` is the forward list of Links. -/
structure HeartbeatService where
  PING_FREQUENCY : Nat
  LATENCY_WARN_THRESHOLD : Int
  peers_ : List Link
  timer_ : Timer
  calls : List Call
deriving DecidableEq, Repr

namespace HeartbeatService

/-- The method `HeartbeatService::set_timer`. -/
def set_timer (s : HeartbeatService) : HeartbeatService :=
  { s with
    timer_ := s.timer_.expires_from_now.async_wait
    calls := s.calls ++ [Call.expires_from_now s.PING_FREQUENCY, Call.async_wait] }

/-- The constructor `HeartbeatService::HeartbeatService`: a fresh timer, an empty
peer list, then `set_timer()`. -/
def construct (ping_frequency : Nat) (latency_warn_threshold : Int) : HeartbeatService :=
  set_timer
    { PING_FREQUENCY := ping_frequency
      LATENCY_WARN_THRESHOLD := latency_warn_threshold
      peers_ := []
      timer_ := { pending := 0, aborted := 0, expired := 0 }
      calls := [] }

/-- The method `HeartbeatService::on_link_up`: `peers_.emplace_front(link)`. -/
def on_link_up (link : Link) (s : HeartbeatService) : HeartbeatService :=
  { s with peers_ := link :: s.peers_ }

/-- The method `HeartbeatService::on_link_down`: `peers_.remove(link)`, which erases
every element that compares equal to `link`. -/
def on_link_down (link : Link) (s : HeartbeatService) : HeartbeatService :=
  { s with peers_ := s.peers_.filter (fun p => !(Link.equal p link)) }

/-- The method `HeartbeatService::send_ping`. -/
def send_ping (link : Link) (time : Nat) (s : HeartbeatService) : HeartbeatService :=
  let msg := CreateMessageRoot Service.Core 0 0 Data.Ping (CreatePing time)
  { s with calls := s.calls ++ [Call.send link msg] }

/-- The method `HeartbeatService::send_pong`. -/
def send_pong (link : Link) (time : Nat) (s : HeartbeatService) : HeartbeatService :=
  let msg := CreateMessageRoot Service.Core 0 0 Data.Pong (CreatePong time)
  { s with calls := s.calls ++ [Call.send link msg] }

/-- The method `HeartbeatService::handle_ping`. -/
def handle_ping (link : Link) (message : MessageRoot) (s : HeartbeatService) :
    HeartbeatService :=
  let ping := message.data
  send_pong link ping.timestamp s

/-- The latency `std::chrono::milliseconds(time - pong->timestamp())`: the signed
clock count is converted to unsigned, the subtraction wraps modulo 2^64, and the
result is stored in the signed 64-bit representation of the duration. -/
def latency (time : Int) (timestamp : Nat) : Int :=
  to_int64 (sub_uint64 (to_uint64 time) timestamp)

/-- The method `HeartbeatService::handle_pong`; `time` is the steady clock reading
in milliseconds. -/
def handle_pong (link : Link) (message : MessageRoot) (time : Int) (s : HeartbeatService) :
    HeartbeatService :=
  let pong := message.data
  if pong.timestamp ≠ 0 then
    if latency time pong.timestamp > s.LATENCY_WARN_THRESHOLD then
      { s with calls := s.calls ++ [Call.warn_high_latency link.description link.uuid] }
    else s
  else s

/-- The method `HeartbeatService::on_message`.  The response token is not read by
the body; `time` is the clock reading `handle_pong` would take. -/
def on_message {Token : Type} (link : Link) (_token : Token) (message : MessageRoot)
    (time : Int) (s : HeartbeatService) : HeartbeatService :=
  match message.data_type with
  | Data.Ping => handle_ping link message s
  | Data.Pong => handle_pong link message time s
  | _ => { s with calls := s.calls ++ [Call.warn_unhandled link.uuid] }

/-- The method `HeartbeatService::trigger_pings`; `time` is the steady clock reading
taken once, before the loop over `peers_`. -/
def trigger_pings (ec : error_code) (time : Int) (s : HeartbeatService) : HeartbeatService :=
  if ec.is_set then s
  else
    let s1 := s.peers_.foldl (fun acc link => send_ping link (to_uint64 time) acc) s
    set_timer s1

/-- The method `HeartbeatService::shutdown`: `timer_.cancel()`. -/
def shutdown (s : HeartbeatService) : HeartbeatService :=
  { s with timer_ := s.timer_.cancel, calls := s.calls ++ [Call.cancel] }


/-! ## The service as a transition system -/

/-- The steps a monitor can take once constructed. -/
inductive Event where
  /-- The timer's deadline passes: the outstanding wait completes. -/
  | timer_expired
  /-- A queued completion handler runs `trigger_pings(ec)`; `time` is the clock. -/
  | fire (ec : error_code) (time : Int)
  /-- A call of `set_timer()` on its own. -/
  | set_timer
  /-- A call of `shutdown()`. -/
  | shutdown
  /-- A call of `on_message(link, token, message)` at clock reading `time`. -/
  | on_message (link : Link) (message : MessageRoot) (time : Int)
  /-- A call of `on_link_up(link)`. -/
  | on_link_up (link : Link)
  /-- A call of `on_link_down(link)`. -/
  | on_link_down (link : Link)
deriving DecidableEq, Repr

/-- One step.  A firing is enabled only when a handler is queued with the matching
error code: a cancelled wait hands `trigger_pings` a set code, an expired one a
clear code; the handler leaves the queue when it runs. -/
def step (s : HeartbeatService) : Event → Option HeartbeatService
  | Event.timer_expired => some { s with timer_ := s.timer_.expire }
  | Event.fire ec time =>
    if ec.is_set then
      if 0 < s.timer_.aborted then
        some (trigger_pings ec time
          { s with timer_ := { s.timer_ with aborted := s.timer_.aborted - 1 } })
      else none
    else
      if 0 < s.timer_.expired then
        some (trigger_pings ec time
          { s with timer_ := { s.timer_ with expired := s.timer_.expired - 1 } })
      else none
  | Event.set_timer => some (set_timer s)
  | Event.shutdown => some (shutdown s)
  | Event.on_message link message time => some (on_message link () message time s)
  | Event.on_link_up link => some (on_link_up link s)
  | Event.on_link_down link => some (on_link_down link s)

/-- A sequence of steps; `none` when some step is not enabled. -/
def run (s : HeartbeatService) : List Event → Option HeartbeatService
  | [] => some s
  | e :: es => (step s e).bind (fun s1 => run s1 es)

/-- The link lifecycle notifications the message router fans out. -/
inductive Notification where
  | link_up (link : Link)
  | link_down (link : Link)
deriving DecidableEq, Repr

/-- The identifier a notification is about. -/
def Notification.uuid : Notification → Nat
  | .link_up l => l.uuid
  | .link_down l => l.uuid

/-- True for a link-up notification. -/
def Notification.is_up : Notification → Bool
  | .link_up _ => true
  | .link_down _ => false

/-- Delivery of one notification. -/
def notify (s : HeartbeatService) : Notification → HeartbeatService
  | .link_up l => on_link_up l s
  | .link_down l => on_link_down l s

/-- Delivery of a sequence of notifications, first to last. -/
def notify_all (s : HeartbeatService) (ns : List Notification) : HeartbeatService :=
  ns.foldl notify s

/-- The notifications about `uuid` that arrived after its most recent link-down
(all of them when there was none), latest first. -/
def since_last_down (uuid : Nat) (ns : List Notification) : List Notification :=
  (ns.reverse.filter (fun n => n.uuid == uuid)).takeWhile Notification.is_up

/-- The number of link-up notifications for `uuid` since its most recent link-down. -/
def ups_since_down (uuid : Nat) (ns : List Notification) : Nat :=
  (since_last_down uuid ns).length

/-- True when the most recent notification about `uuid` is a link-up. -/
def last_is_up (uuid : Nat) (ns : List Notification) : Bool :=
  match ns.reverse.find? (fun n => n.uuid == uuid) with
  | some n => n.is_up
  | none => false

/-- The entries of the peer table whose identifier is `uuid`. -/
def entries_for (uuid : Nat) (s : HeartbeatService) : List Link :=
  s.peers_.filter (fun p => p.uuid == uuid)

/-- The Ping sends to a Link with identifier `uuid` among a list of calls. -/
def pings_to (uuid : Nat) (cs : List Call) : List Call :=
  cs.filter (fun c =>
    match c with
    | Call.send l m => l.uuid == uuid && m.data_type == Data.Ping
    | _ => false)

end HeartbeatService

open HeartbeatService

/-! ## Sample values -/

/-- A sample Link. -/
def sample_link : Link := { uuid := 7, description := "realm gateway", net := 3 }

/-- A second sample Link, with the description of the first. -/
def other_link : Link := { uuid := 9, description := "realm gateway", net := 4 }

/-- A sample monitor: period 20, threshold 1000 ms, two peers. -/
def sample_service : HeartbeatService :=
  on_link_up sample_link (on_link_up other_link (construct 20 1000))

/-- The Ping envelope `send_ping` builds for a timestamp. -/
def ping_envelope (timestamp : Nat) : MessageRoot :=
  { service := Service.Core, opcode := 0, correlation := 0, data_type := Data.Ping,
    data := Payload.Ping timestamp }

/-- The Pong envelope `send_pong` builds for a timestamp. -/
def pong_envelope (timestamp : Nat) : MessageRoot :=
  { service := Service.Core, opcode := 0, correlation := 0, data_type := Data.Pong,
    data := Payload.Pong timestamp }

/-! ## Helper lemmas -/

theorem send_ping_eq (l : Link) (t : Nat) (s : HeartbeatService) :
    send_ping l t s = { s with calls := s.calls ++ [Call.send l (ping_envelope (t % 2 ^ 64))] } := by
  simp [send_ping, CreateMessageRoot, CreatePing, ping_envelope]

theorem send_pong_eq (l : Link) (t : Nat) (s : HeartbeatService) :
    send_pong l t s = { s with calls := s.calls ++ [Call.send l (pong_envelope (t % 2 ^ 64))] } := by
  simp [send_pong, CreateMessageRoot, CreatePong, pong_envelope]

theorem to_uint64_lt (x : Int) : to_uint64 x < 2 ^ 64 := by
  unfold to_uint64
  omega

theorem to_uint64_of_nonneg (x : Int) (h0 : 0 ≤ x) (h1 : x < 2 ^ 64) :
    (to_uint64 x : Int) = x := by
  unfold to_uint64
  omega

theorem broadcast_eq (ps : List Link) (t : Nat) (s : HeartbeatService) :
    ps.foldl (fun acc link => send_ping link t acc) s =
      { s with calls := s.calls ++ ps.map (fun l => Call.send l (ping_envelope (t % 2 ^ 64))) } := by
  induction ps generalizing s with
  | nil => simp
  | cons p ps ih =>
    rw [List.foldl_cons, ih, send_ping_eq]
    simp

theorem trigger_pings_clear (ec : error_code) (time : Int) (s : HeartbeatService)
    (hec : ec.is_set = false) :
    trigger_pings ec time s =
      { s with
        timer_ := s.timer_.expires_from_now.async_wait
        calls := s.calls ++ s.peers_.map (fun l => Call.send l (ping_envelope (to_uint64 time)))
          ++ [Call.expires_from_now s.PING_FREQUENCY, Call.async_wait] } := by
  have hlt : to_uint64 time % 18446744073709551616 = to_uint64 time :=
    Nat.mod_eq_of_lt (by have := to_uint64_lt time; omega)
  simp [trigger_pings, hec, broadcast_eq, set_timer, hlt]

/-! ## Claims -/

/-- C1 (echo invariant): a Ping envelope with a 64-bit timestamp `T` (0 included)
delivered from Link `l` to `on_message` causes exactly one call, a send addressed
to `l` whose envelope is a Pong carrying exactly `T`; the peer table and the timer
are not changed. -/
theorem ping_is_echoed {Token : Type} (l : Link) (token : Token) (m : MessageRoot) (T : Nat)
    (time : Int) (s : HeartbeatService) (hT : T < 2 ^ 64)
    (hkind : m.data_type = Data.Ping) (hdata : m.data = Payload.Ping T) :
    (on_message l token m time s).calls = s.calls ++ [Call.send l (pong_envelope T)] ∧
    (pong_envelope T).data_type = Data.Pong ∧
    (pong_envelope T).data = Payload.Pong T ∧
    (on_message l token m time s).peers_ = s.peers_ ∧
    (on_message l token m time s).timer_ = s.timer_ := by
  have hT1 : T % 18446744073709551616 = T := Nat.mod_eq_of_lt (by omega)
  simp [on_message, hkind, handle_ping, hdata, Payload.timestamp, send_pong_eq, hT1,
    pong_envelope]

/-- Witness for C1 at timestamp 0. -/
theorem ping_is_echoed_witness :
    (0 : Nat) < 2 ^ 64 ∧
    (on_message sample_link () (ping_envelope 0) 5 sample_service).calls =
      sample_service.calls ++ [Call.send sample_link (pong_envelope 0)] ∧
    (on_message sample_link () (ping_envelope 0) 5 sample_service).peers_ =
      sample_service.peers_ :=
  ⟨by decide,
   (ping_is_echoed sample_link () (ping_envelope 0) 0 5 sample_service (by decide) rfl rfl).1,
   (ping_is_echoed sample_link () (ping_envelope 0) 0 5 sample_service (by decide) rfl rfl).2.2.2.1⟩

/-- C3 (cancelled firing is a no-op): `trigger_pings` called with a set error code
returns the monitor as it was: no call is made (no Ping sent, no timer operation,
so no re-arm) and the peer table is unchanged. -/
theorem cancelled_firing_is_noop (ec : error_code) (time : Int) (s : HeartbeatService)
    (hec : ec.is_set = true) :
    trigger_pings ec time s = s ∧
    (trigger_pings ec time s).calls = s.calls ∧
    (trigger_pings ec time s).timer_ = s.timer_ ∧
    (trigger_pings ec time s).peers_ = s.peers_ := by
  simp [trigger_pings, hec]

/-- Witness for C3: the firing that follows `shutdown()` on the sample monitor. -/
theorem cancelled_firing_is_noop_witness :
    error_code.is_set ⟨125⟩ = true ∧
    trigger_pings ⟨125⟩ 40000 (shutdown sample_service) = shutdown sample_service :=
  ⟨by decide, (cancelled_firing_is_noop ⟨125⟩ 40000 (shutdown sample_service) (by decide)).1⟩

/-- C4 (ping broadcast): a firing with a clear error code makes, in order, one send
per entry of the peer table, addressed to that entry's Link, each a Ping envelope
carrying the one clock value read for the firing (as converted to `uint64_t`, which
is the value itself for a non-negative reading), then one `expires_from_now` and
one `async_wait`; exactly one wait is pending afterwards and the peer table is
unchanged.  With an empty table the calls are just the re-arming pair. -/
theorem firing_broadcasts_then_rearms (ec : error_code) (time : Int) (s : HeartbeatService)
    (hec : ec.is_set = false) :
    (trigger_pings ec time s).calls =
      s.calls ++ s.peers_.map (fun l => Call.send l (ping_envelope (to_uint64 time)))
        ++ [Call.expires_from_now s.PING_FREQUENCY, Call.async_wait] ∧
    (0 ≤ time → time < 2 ^ 64 → (to_uint64 time : Int) = time) ∧
    (trigger_pings ec time s).timer_.pending = 1 ∧
    (trigger_pings ec time s).peers_ = s.peers_ ∧
    (s.peers_ = [] → (trigger_pings ec time s).calls =
      s.calls ++ [Call.expires_from_now s.PING_FREQUENCY, Call.async_wait]) := by
  rw [trigger_pings_clear ec time s hec]
  refine ⟨rfl, to_uint64_of_nonneg time, ?_, rfl, ?_⟩
  · simp [Timer.expires_from_now, Timer.cancel, Timer.async_wait]
  · intro h
    simp [h]

/-- Witness for C4 on the sample monitor with its two peers. -/
theorem firing_broadcasts_then_rearms_witness :
    error_code.is_set ⟨0⟩ = false ∧
    (trigger_pings ⟨0⟩ 40000 sample_service).calls =
      sample_service.calls ++
        [Call.send sample_link (ping_envelope 40000), Call.send other_link (ping_envelope 40000),
         Call.expires_from_now 20, Call.async_wait] :=
  ⟨by decide, by
    have h := (firing_broadcasts_then_rearms ⟨0⟩ 40000 sample_service (by decide)).1
    rw [h]
    decide⟩

/-- C7 (zero timestamp is skipped): a Pong whose timestamp is 0 leaves the monitor
exactly as it was, for every Link and every clock reading: no warning, no send, no
other call; the function is total, so nothing is raised. -/
theorem zero_timestamp_is_skipped {Token : Type} (l : Link) (token : Token) (m : MessageRoot)
    (time : Int) (s : HeartbeatService) (hdata : m.data = Payload.Pong 0) :
    handle_pong l m time s = s ∧
    (m.data_type = Data.Pong → on_message l token m time s = s) := by
  have h : handle_pong l m time s = s := by
    simp [handle_pong, hdata, Payload.timestamp]
  refine ⟨h, ?_⟩
  intro hk
  simp [on_message, hk, h]

/-- Witness for C7 at the largest signed 64-bit clock reading. -/
theorem zero_timestamp_is_skipped_witness :
    (pong_envelope 0).data = Payload.Pong 0 ∧
    handle_pong sample_link (pong_envelope 0) (2 ^ 63 - 1) sample_service = sample_service :=
  ⟨rfl, (zero_timestamp_is_skipped sample_link () (pong_envelope 0) (2 ^ 63 - 1)
    sample_service rfl).1⟩

/-- C9 (envelopes built are well-formed): for a 64-bit timestamp, `send_ping` makes
exactly one call, a send to the given Link of an envelope with discriminant Ping
and a Ping payload carrying the timestamp, and `send_pong` one of an envelope with
discriminant Pong and a Pong payload carrying it; in both the source service is
Core, the two reserved fields are 0 and the discriminant matches the variant. -/
theorem built_envelopes_well_formed (l : Link) (t : Nat) (s : HeartbeatService)
    (ht : t < 2 ^ 64) :
    (send_ping l t s).calls = s.calls ++ [Call.send l
      { service := Service.Core, opcode := 0, correlation := 0, data_type := Data.Ping,
        data := Payload.Ping t }] ∧
    (send_pong l t s).calls = s.calls ++ [Call.send l
      { service := Service.Core, opcode := 0, correlation := 0, data_type := Data.Pong,
        data := Payload.Pong t }] ∧
    MessageRoot.well_formed (CreateMessageRoot Service.Core 0 0 Data.Ping (CreatePing t)) = true ∧
    MessageRoot.well_formed (CreateMessageRoot Service.Core 0 0 Data.Pong (CreatePong t)) = true := by
  have ht1 : t % 18446744073709551616 = t := Nat.mod_eq_of_lt (by omega)
  simp [send_ping, send_pong, CreateMessageRoot, CreatePing, CreatePong, ht1,
    MessageRoot.well_formed, Payload.kind]

/-- Witness for C9 at the largest 64-bit timestamp. -/
theorem built_envelopes_well_formed_witness :
    2 ^ 64 - 1 < 2 ^ 64 ∧
    (send_ping sample_link (2 ^ 64 - 1) sample_service).calls = sample_service.calls ++
      [Call.send sample_link
        { service := Service.Core, opcode := 0, correlation := 0, data_type := Data.Ping,
          data := Payload.Ping (2 ^ 64 - 1) }] :=
  ⟨by decide, (built_envelopes_well_formed sample_link (2 ^ 64 - 1) sample_service (by decide)).1⟩

/-- The signed latency is the clock difference itself when that difference lies in
the signed 64-bit range. -/
theorem latency_of_in_range (time : Int) (t : Nat) (ht : t < 2 ^ 64)
    (hlo : -2 ^ 63 ≤ (to_uint64 time : Int) - t) (hhi : (to_uint64 time : Int) - t < 2 ^ 63) :
    latency time t = (to_uint64 time : Int) - t := by
  have hlt := to_uint64_lt time
  unfold latency to_int64 sub_uint64
  split <;> omega

theorem handle_pong_warns (l : Link) (m : MessageRoot) (time : Int) (s : HeartbeatService)
    (h0 : m.data.timestamp ≠ 0) (hl : latency time m.data.timestamp > s.LATENCY_WARN_THRESHOLD) :
    handle_pong l m time s =
      { s with calls := s.calls ++ [Call.warn_high_latency l.description l.uuid] } := by
  simp [handle_pong, h0, hl]

theorem handle_pong_quiet (l : Link) (m : MessageRoot) (time : Int) (s : HeartbeatService)
    (hl : ¬ latency time m.data.timestamp > s.LATENCY_WARN_THRESHOLD) :
    handle_pong l m time s = s := by
  simp [handle_pong, hl]

/-- C5 (link-down removes by identifier): after `on_link_down(l)` no entry of the
peer table has `l`'s identifier, whatever its description; the table is the old one
with exactly those entries filtered out, so every entry with another identifier is
kept, as often as before and in the same relative order; when no entry matches, the
monitor is unchanged.  Nothing but the peer table is touched. -/
theorem link_down_removes_by_identifier (l : Link) (s : HeartbeatService) :
    (∀ p ∈ (on_link_down l s).peers_, p.uuid ≠ l.uuid) ∧
    (on_link_down l s).peers_ = s.peers_.filter (fun p => decide (p.uuid ≠ l.uuid)) ∧
    (on_link_down l s).peers_.Sublist s.peers_ ∧
    (∀ p : Link, p.uuid ≠ l.uuid → (on_link_down l s).peers_.count p = s.peers_.count p) ∧
    ((∀ p ∈ s.peers_, p.uuid ≠ l.uuid) → on_link_down l s = s) ∧
    (on_link_down l s).calls = s.calls ∧ (on_link_down l s).timer_ = s.timer_ := by
  have hfilter : (on_link_down l s).peers_ =
      s.peers_.filter (fun p => decide (p.uuid ≠ l.uuid)) := by
    simp only [on_link_down, Link.equal]
    congr 1
    funext p
    by_cases h : p.uuid = l.uuid <;> simp [h]
  refine ⟨?_, hfilter, ?_, ?_, ?_, rfl, rfl⟩
  · intro p hp
    rw [hfilter] at hp
    simpa using (List.mem_filter.mp hp).2
  · rw [hfilter]
    exact List.filter_sublist _
  · intro p hp
    rw [hfilter, List.count_filter]
    simpa using hp
  · intro h
    have hp : s.peers_.filter (fun p => decide (p.uuid ≠ l.uuid)) = s.peers_ := by
      rw [List.filter_eq_self]
      intro p hp
      simpa using h p hp
    have h2 : (on_link_down l s).peers_ = s.peers_ := by rw [hfilter, hp]
    cases s
    simp only [on_link_down] at h2 ⊢
    simp only [h2]

/-- Witness for C5: removing an absent Link leaves the sample monitor unchanged. -/
theorem link_down_removes_by_identifier_witness :
    (∀ p ∈ sample_service.peers_, p.uuid ≠ 8) ∧
    on_link_down { uuid := 8, description := "realm gateway", net := 0 } sample_service =
      sample_service :=
  ⟨by decide,
   (link_down_removes_by_identifier { uuid := 8, description := "realm gateway", net := 0 }
      sample_service).2.2.2.2.1 (by decide)⟩

/-- C2, counterexample: a Ping sent at clock reading 0 is answered at reading 5000;
the difference exceeds the threshold of 1000 ms, yet `handle_pong` logs nothing. -/
theorem latency_warning_zero_send_time :
    (5000 : Int) - 0 > sample_service.LATENCY_WARN_THRESHOLD ∧
    (pong_envelope (to_uint64 0)).data = Payload.Pong 0 ∧
    (handle_pong sample_link (pong_envelope (to_uint64 0)) 5000 sample_service).calls =
      sample_service.calls ∧
    (handle_pong sample_link (pong_envelope (to_uint64 0)) 5000 sample_service).calls ≠
      sample_service.calls ++
        [Call.warn_high_latency sample_link.description sample_link.uuid] := by
  decide

/-- C2, amended (latency warning threshold): for a Pong that echoes a Ping sent at
a non-zero clock reading `T1` and is received at reading `T2`, both non-negative
signed 64-bit millisecond counts with `T1 ≤ T2`: if `T2 - T1` exceeds the threshold,
`handle_pong` makes exactly one call, the latency warning naming the Link's
description and identifier; if `T2 - T1` is at or below the threshold it makes none.
The peer table and the timer are untouched either way. -/
theorem latency_warning_threshold (l : Link) (m : MessageRoot) (T1 T2 : Int)
    (s : HeartbeatService) (h1 : 0 < T1) (h12 : T1 ≤ T2) (h2 : T2 < 2 ^ 63)
    (hdata : m.data = Payload.Pong (to_uint64 T1)) :
    (T2 - T1 > s.LATENCY_WARN_THRESHOLD →
      (handle_pong l m T2 s).calls =
        s.calls ++ [Call.warn_high_latency l.description l.uuid]) ∧
    (T2 - T1 ≤ s.LATENCY_WARN_THRESHOLD → (handle_pong l m T2 s).calls = s.calls) ∧
    (handle_pong l m T2 s).peers_ = s.peers_ ∧
    (handle_pong l m T2 s).timer_ = s.timer_ := by
  have e1 : (to_uint64 T1 : Int) = T1 := to_uint64_of_nonneg T1 (by omega) (by omega)
  have e2 : (to_uint64 T2 : Int) = T2 := to_uint64_of_nonneg T2 (by omega) (by omega)
  have hts : m.data.timestamp = to_uint64 T1 := by
    rw [hdata]
    exact Nat.mod_eq_of_lt (to_uint64_lt T1)
  have hne : m.data.timestamp ≠ 0 := by
    rw [hts]
    omega
  have hlat : latency T2 m.data.timestamp = T2 - T1 := by
    rw [hts, latency_of_in_range T2 (to_uint64 T1) (to_uint64_lt T1) (by omega) (by omega)]
    omega
  refine ⟨?_, ?_, ?_, ?_⟩
  · intro h
    rw [handle_pong_warns l m T2 s hne (by omega)]
  · intro h
    rw [handle_pong_quiet l m T2 s (by omega)]
  · by_cases h : latency T2 m.data.timestamp > s.LATENCY_WARN_THRESHOLD
    · rw [handle_pong_warns l m T2 s hne h]
    · rw [handle_pong_quiet l m T2 s h]
  · by_cases h : latency T2 m.data.timestamp > s.LATENCY_WARN_THRESHOLD
    · rw [handle_pong_warns l m T2 s hne h]
    · rw [handle_pong_quiet l m T2 s h]

/-- Witness for C2: one millisecond above the threshold of 1000 ms. -/
theorem latency_warning_threshold_witness :
    (0 : Int) < 40000 ∧ (40000 : Int) ≤ 41001 ∧ (41001 : Int) < 2 ^ 63 ∧
    (41001 : Int) - 40000 > sample_service.LATENCY_WARN_THRESHOLD ∧
    (handle_pong other_link (pong_envelope (to_uint64 40000)) 41001 sample_service).calls =
      sample_service.calls ++ [Call.warn_high_latency "realm gateway" 9] :=
  ⟨by decide, by decide, by decide, by decide,
   (latency_warning_threshold other_link (pong_envelope (to_uint64 40000)) 40000 41001
      sample_service (by decide) (by decide) (by decide) rfl).1 (by decide)⟩

/-- C10 (latency in wrapping 64-bit arithmetic): for a Pong with a non-zero 64-bit
timestamp `t` and the clock value `now` as an unsigned 64-bit number, the latency
compared with the threshold is the signed 64-bit reading of `(now - t) mod 2^64`.
When `t` lies in the future (`now < t` and `t - now ≤ 2^63`) the latency is the
negative number `now - t` and, the threshold being non-negative, nothing is logged.
In general the warning is the one call made exactly when that signed value is
greater than the threshold, and no call is made otherwise. -/
theorem latency_is_wrapping_signed (l : Link) (m : MessageRoot) (time : Int) (t : Nat)
    (s : HeartbeatService) (ht : t < 2 ^ 64) (ht0 : t ≠ 0) (hdata : m.data = Payload.Pong t) :
    latency time t =
      (if ((to_uint64 time : Int) - t) % 2 ^ 64 < 2 ^ 63 then ((to_uint64 time : Int) - t) % 2 ^ 64
       else ((to_uint64 time : Int) - t) % 2 ^ 64 - 2 ^ 64) ∧
    (to_uint64 time < t → t - to_uint64 time ≤ 2 ^ 63 →
      latency time t = (to_uint64 time : Int) - t ∧ latency time t < 0 ∧
      (0 ≤ s.LATENCY_WARN_THRESHOLD → handle_pong l m time s = s)) ∧
    (latency time t > s.LATENCY_WARN_THRESHOLD →
      (handle_pong l m time s).calls =
        s.calls ++ [Call.warn_high_latency l.description l.uuid]) ∧
    (¬ latency time t > s.LATENCY_WARN_THRESHOLD → (handle_pong l m time s).calls = s.calls) := by
  have hts : m.data.timestamp = t := by
    rw [hdata]
    exact Nat.mod_eq_of_lt ht
  have hlt := to_uint64_lt time
  refine ⟨?_, ?_, ?_, ?_⟩
  · unfold latency to_int64 sub_uint64
    split <;> split <;> omega
  · intro hfut hfar
    have hval : latency time t = (to_uint64 time : Int) - t :=
      latency_of_in_range time t ht (by omega) (by omega)
    refine ⟨hval, by omega, ?_⟩
    intro hthr
    exact handle_pong_quiet l m time s (by rw [hts]; omega)
  · intro h
    rw [handle_pong_warns l m time s (by rw [hts]; exact ht0) (by rw [hts]; exact h)]
  · intro h
    rw [handle_pong_quiet l m time s (by rw [hts]; exact h)]

/-- Witness for C10: a Pong stamped one millisecond ahead of the receiver's clock. -/
theorem latency_is_wrapping_signed_witness :
    41001 < 2 ^ 64 ∧ 41001 ≠ 0 ∧ to_uint64 41000 < 41001 ∧ 41001 - to_uint64 41000 ≤ 2 ^ 63 ∧
    latency 41000 41001 = -1 ∧
    handle_pong sample_link (pong_envelope 41001) 41000 sample_service = sample_service := by
  have h := (latency_is_wrapping_signed sample_link (pong_envelope 41001) 41000 41001
    sample_service (by decide) (by decide) rfl).2.1 (by decide) (by decide)
  exact ⟨by decide, by decide, by decide, by decide, by decide, h.2.2 (by decide)⟩

/-! ## The peer table under notifications -/

theorem notify_all_snoc (s : HeartbeatService) (ns : List Notification) (n : Notification) :
    notify_all s (ns ++ [n]) = notify (notify_all s ns) n := by
  simp [notify_all, List.foldl_append]

theorem since_last_down_snoc (u : Nat) (ns : List Notification) (n : Notification) :
    since_last_down u (ns ++ [n]) =
      if n.uuid = u then (if n.is_up = true then n :: since_last_down u ns else [])
      else since_last_down u ns := by
  unfold since_last_down
  rw [List.reverse_append, List.reverse_singleton, List.singleton_append]
  by_cases h : n.uuid = u
  · by_cases hup : n.is_up = true <;> simp [List.filter_cons, h, hup, List.takeWhile_cons]
  · simp [List.filter_cons, h]

theorem last_is_up_snoc (u : Nat) (ns : List Notification) (n : Notification) :
    last_is_up u (ns ++ [n]) = if n.uuid = u then n.is_up else last_is_up u ns := by
  unfold last_is_up
  rw [List.reverse_append, List.reverse_singleton, List.singleton_append]
  by_cases h : n.uuid = u <;> simp [List.find?_cons, h]

theorem entries_for_notify (u : Nat) (s : HeartbeatService) (n : Notification) :
    entries_for u (notify s n) =
      match n with
      | .link_up l => if l.uuid = u then l :: entries_for u s else entries_for u s
      | .link_down l => if l.uuid = u then [] else entries_for u s := by
  cases n with
  | link_up l =>
    by_cases h : l.uuid = u <;> simp [notify, on_link_up, entries_for, List.filter_cons, h]
  | link_down l =>
    by_cases h : l.uuid = u
    · simp only [notify, on_link_down, entries_for, Link.equal, h, if_true, List.filter_filter]
      rw [List.filter_eq_nil_iff]
      intro p _
      by_cases hp : p.uuid = u <;> simp [hp]
    · simp only [notify, on_link_down, entries_for, Link.equal, h, if_false, List.filter_filter]
      apply List.filter_congr
      intro p _
      by_cases hp : p.uuid = u
      · have : ¬ u = l.uuid := fun e => h e.symm
        simp [hp, this]
      · simp [hp]

theorem entries_and_last (s : HeartbeatService) (hs : s.peers_ = []) (u : Nat)
    (ns : List Notification) :
    (entries_for u (notify_all s ns)).length = ups_since_down u ns ∧
    (last_is_up u ns = true ↔ 0 < ups_since_down u ns) := by
  induction ns using List.reverseRecOn with
  | nil => simp [notify_all, entries_for, hs, ups_since_down, since_last_down, last_is_up]
  | append_singleton ns n ih =>
    obtain ⟨ih1, ih2⟩ := ih
    unfold ups_since_down at ih1 ih2 ⊢
    rw [notify_all_snoc, entries_for_notify, since_last_down_snoc, last_is_up_snoc]
    cases n with
    | link_up l =>
      by_cases h : l.uuid = u
      · simp [Notification.uuid, Notification.is_up, h, ih1]
      · simp [Notification.uuid, h, ih1, ih2]
    | link_down l =>
      by_cases h : l.uuid = u
      · simp [Notification.uuid, Notification.is_up, h]
      · simp [Notification.uuid, h, ih1, ih2]

theorem pings_to_map (u : Nat) (t : Nat) (ps : List Link) :
    pings_to u (ps.map (fun l => Call.send l (ping_envelope t))) =
      (ps.filter (fun p => p.uuid == u)).map (fun l => Call.send l (ping_envelope t)) := by
  induction ps with
  | nil => rfl
  | cons p ps ih =>
    unfold pings_to at ih ⊢
    rw [List.map_cons, List.filter_cons, List.filter_cons, ih]
    by_cases h : p.uuid = u <;> simp [h, ping_envelope]

theorem pings_to_broadcast (u : Nat) (t : Nat) (tail : List Call) (ps : List Link) :
    pings_to u (ps.map (fun l => Call.send l (ping_envelope t)) ++ tail) =
      (ps.filter (fun p => p.uuid == u)).map (fun l => Call.send l (ping_envelope t))
        ++ pings_to u tail := by
  rw [← pings_to_map]
  unfold pings_to
  rw [List.filter_append]

/-- C6, counterexample: two link-up notifications for one Link leave two entries
with its identifier in the peer table, and the next firing sends it two Pings. -/
theorem peer_table_holds_duplicates :
    last_is_up 7 [Notification.link_up sample_link, Notification.link_up sample_link] = true ∧
    (notify_all (construct 20 1000)
      [Notification.link_up sample_link, Notification.link_up sample_link]).peers_ =
      [sample_link, sample_link] ∧
    (pings_to 7 (trigger_pings ⟨0⟩ 40000 (notify_all (construct 20 1000)
      [Notification.link_up sample_link, Notification.link_up sample_link])).calls).length = 2 := by
  decide

/-- C6, amended (the peer table counts link-ups): after every finite sequence of
`on_link_up` / `on_link_down` notifications delivered to a freshly constructed
monitor, the peer table holds, for each identifier, exactly as many entries as
link-up notifications arrived for it since its most recent link-down: at least one
when its most recent notification is a link-up, none otherwise, and exactly one
when it was notified up at most once since its last link-down.  A firing then
sends to the Links with that identifier exactly that many Pings. -/
theorem peer_table_counts_link_ups (ping_frequency : Nat) (latency_warn_threshold : Int)
    (ns : List Notification) (uuid : Nat) :
    (entries_for uuid (notify_all (construct ping_frequency latency_warn_threshold) ns)).length =
      ups_since_down uuid ns ∧
    (last_is_up uuid ns = true →
      1 ≤ (entries_for uuid
        (notify_all (construct ping_frequency latency_warn_threshold) ns)).length) ∧
    (last_is_up uuid ns = false →
      entries_for uuid (notify_all (construct ping_frequency latency_warn_threshold) ns) = []) ∧
    (ups_since_down uuid ns ≤ 1 →
      ((entries_for uuid
        (notify_all (construct ping_frequency latency_warn_threshold) ns)).length = 1 ↔
        last_is_up uuid ns = true)) ∧
    (∀ (ec : error_code) (time : Int), ec.is_set = false →
      ∃ new : List Call,
        (trigger_pings ec time
          (notify_all (construct ping_frequency latency_warn_threshold) ns)).calls =
          (notify_all (construct ping_frequency latency_warn_threshold) ns).calls ++ new ∧
        (pings_to uuid new).length = ups_since_down uuid ns) := by
  obtain ⟨h1, h2⟩ := entries_and_last (construct ping_frequency latency_warn_threshold) rfl uuid ns
  refine ⟨h1, ?_, ?_, ?_, ?_⟩
  · intro h
    have := h2.mp h
    omega
  · intro h
    have h0 : ups_since_down uuid ns = 0 := by
      by_contra hne
      have := h2.mpr (by omega)
      rw [h] at this
      exact Bool.noConfusion this
    exact List.length_eq_zero.mp (by omega)
  · intro hle
    rw [h1, h2]
    omega
  · intro ec time hec
    refine ⟨(notify_all (construct ping_frequency latency_warn_threshold) ns).peers_.map
        (fun l => Call.send l (ping_envelope (to_uint64 time))) ++
        [Call.expires_from_now
          (notify_all (construct ping_frequency latency_warn_threshold) ns).PING_FREQUENCY,
         Call.async_wait], ?_, ?_⟩
    · rw [trigger_pings_clear ec time _ hec, List.append_assoc]
    · rw [pings_to_broadcast]
      simp only [entries_for] at h1
      simp [pings_to, h1]

/-- Witness for C6: up, down, up for one identifier leaves exactly one entry. -/
theorem peer_table_counts_link_ups_witness :
    ups_since_down 7 [Notification.link_up sample_link, Notification.link_down sample_link,
      Notification.link_up sample_link] ≤ 1 ∧
    last_is_up 7 [Notification.link_up sample_link, Notification.link_down sample_link,
      Notification.link_up sample_link] = true ∧
    (entries_for 7 (notify_all (construct 20 1000)
      [Notification.link_up sample_link, Notification.link_down sample_link,
        Notification.link_up sample_link])).length = 1 := by
  have h := (peer_table_counts_link_ups 20 1000
    [Notification.link_up sample_link, Notification.link_down sample_link,
      Notification.link_up sample_link] 7).2.2.2.1 (by decide)
  exact ⟨by decide, by decide, h.mpr (by decide)⟩

/-! ## The timer -/

theorem trigger_pings_set (ec : error_code) (time : Int) (s : HeartbeatService)
    (hec : ec.is_set = true) : trigger_pings ec time s = s := by
  simp [trigger_pings, hec]

theorem trigger_pings_clear_timer (ec : error_code) (time : Int) (s : HeartbeatService)
    (hec : ec.is_set = false) :
    (trigger_pings ec time s).timer_ =
      { pending := 1, aborted := s.timer_.aborted + s.timer_.pending,
        expired := s.timer_.expired } := by
  rw [trigger_pings_clear ec time s hec]
  simp [Timer.expires_from_now, Timer.cancel, Timer.async_wait]

theorem handle_pong_timer (l : Link) (m : MessageRoot) (time : Int) (s : HeartbeatService) :
    (handle_pong l m time s).timer_ = s.timer_ := by
  simp only [handle_pong]
  split_ifs <;> rfl

theorem on_message_timer {Token : Type} (l : Link) (token : Token) (m : MessageRoot) (time : Int)
    (s : HeartbeatService) : (on_message l token m time s).timer_ = s.timer_ := by
  unfold on_message
  split
  · rfl
  · exact handle_pong_timer l m time s
  · rfl

/-- Every step keeps at most one wait pending. -/
theorem step_pending_le (s s1 : HeartbeatService) (e : Event) (h : step s e = some s1)
    (hs : s.timer_.pending ≤ 1) : s1.timer_.pending ≤ 1 := by
  cases e with
  | timer_expired =>
    simp only [step, Option.some.injEq] at h
    subst h
    simp [Timer.expire]
  | fire ec time =>
    unfold step at h
    by_cases hec : ec.is_set = true
    · simp only [hec, if_true] at h
      split_ifs at h
      simp only [Option.some.injEq] at h
      subst h
      rw [trigger_pings_set ec time _ hec]
      exact hs
    · have hec1 : ec.is_set = false := by simpa using hec
      simp only [hec1, Bool.false_eq_true, if_false] at h
      split_ifs at h
      simp only [Option.some.injEq] at h
      subst h
      rw [trigger_pings_clear_timer ec time _ hec1]
  | set_timer =>
    simp only [step, Option.some.injEq] at h
    subst h
    simp [set_timer, Timer.expires_from_now, Timer.cancel, Timer.async_wait]
  | shutdown =>
    simp only [step, Option.some.injEq] at h
    subst h
    simp [shutdown, Timer.cancel]
  | on_message l m time =>
    simp only [step, Option.some.injEq] at h
    subst h
    rw [on_message_timer]
    exact hs
  | on_link_up l =>
    simp only [step, Option.some.injEq] at h
    subst h
    exact hs
  | on_link_down l =>
    simp only [step, Option.some.injEq] at h
    subst h
    exact hs

/-- Every step other than a separate `set_timer` call keeps the waits pending and
the handlers queued at no more than one in total. -/
theorem step_total_le (s s1 : HeartbeatService) (e : Event) (h : step s e = some s1)
    (he : e ≠ Event.set_timer)
    (hs : s.timer_.pending + s.timer_.aborted + s.timer_.expired ≤ 1) :
    s1.timer_.pending + s1.timer_.aborted + s1.timer_.expired ≤ 1 := by
  cases e with
  | timer_expired =>
    simp only [step, Option.some.injEq] at h
    subst h
    simp only [Timer.expire]
    omega
  | fire ec time =>
    unfold step at h
    by_cases hec : ec.is_set = true
    · simp only [hec, if_true] at h
      split_ifs at h
      simp only [Option.some.injEq] at h
      subst h
      rw [trigger_pings_set ec time _ hec]
      simp only
      omega
    · have hec1 : ec.is_set = false := by simpa using hec
      simp only [hec1, Bool.false_eq_true, if_false] at h
      split_ifs at h
      simp only [Option.some.injEq] at h
      subst h
      rw [trigger_pings_clear_timer ec time _ hec1]
      simp only
      omega
  | set_timer => exact absurd rfl he
  | shutdown =>
    simp only [step, Option.some.injEq] at h
    subst h
    simp only [shutdown, Timer.cancel]
    omega
  | on_message l m time =>
    simp only [step, Option.some.injEq] at h
    subst h
    rw [on_message_timer]
    exact hs
  | on_link_up l =>
    simp only [step, Option.some.injEq] at h
    subst h
    exact hs
  | on_link_down l =>
    simp only [step, Option.some.injEq] at h
    subst h
    exact hs

theorem run_pending_le (es : List Event) (s s1 : HeartbeatService) (h : run s es = some s1)
    (hs : s.timer_.pending ≤ 1) : s1.timer_.pending ≤ 1 := by
  induction es generalizing s with
  | nil =>
    simp only [run, Option.some.injEq] at h
    subst h
    exact hs
  | cons e es ih =>
    simp only [run] at h
    cases hstep : step s e with
    | none => simp [hstep] at h
    | some s2 =>
      rw [hstep] at h
      exact ih s2 h (step_pending_le s s2 e hstep hs)

theorem run_total_le (es : List Event) (s s1 : HeartbeatService) (h : run s es = some s1)
    (hes : ∀ e ∈ es, e ≠ Event.set_timer)
    (hs : s.timer_.pending + s.timer_.aborted + s.timer_.expired ≤ 1) :
    s1.timer_.pending + s1.timer_.aborted + s1.timer_.expired ≤ 1 := by
  induction es generalizing s with
  | nil =>
    simp only [run, Option.some.injEq] at h
    subst h
    exact hs
  | cons e es ih =>
    simp only [run] at h
    cases hstep : step s e with
    | none => simp [hstep] at h
    | some s2 =>
      rw [hstep] at h
      exact ih s2 h (fun x hx => hes x (List.mem_cons_of_mem e hx))
        (step_total_le s s2 e hstep (hes e (List.mem_cons_self e es)) hs)

theorem fire_set_pending (s s1 : HeartbeatService) (ec : error_code) (time : Int)
    (h : step s (Event.fire ec time) = some s1) (hec : ec.is_set = true) :
    s1.timer_.pending = s.timer_.pending ∧ 0 < s.timer_.aborted := by
  unfold step at h
  simp only [hec, if_true] at h
  split_ifs at h with ha
  simp only [Option.some.injEq] at h
  subst h
  rw [trigger_pings_set ec time _ hec]
  exact ⟨rfl, ha⟩

theorem fire_clear_pending (s s1 : HeartbeatService) (ec : error_code) (time : Int)
    (h : step s (Event.fire ec time) = some s1) (hec : ec.is_set = false) :
    s1.timer_.pending = 1 := by
  unfold step at h
  simp only [hec, Bool.false_eq_true, if_false] at h
  split_ifs at h
  simp only [Option.some.injEq] at h
  subst h
  rw [trigger_pings_clear_timer ec time _ hec]

/-- C8, counterexample: construction, then a `set_timer` step (its
`expires_from_now` cancels the first wait and a new wait is started), then the
cancelled firing of the first wait: one wait is still pending after it. -/
theorem cancelled_firing_can_leave_one_pending :
    error_code.is_set ⟨125⟩ = true ∧
    (run (construct 20 1000) [Event.set_timer, Event.fire ⟨125⟩ 40000]).map
      (fun s => s.timer_.pending) = some 1 := by
  decide

/-- C8, amended (timer invariant): construction leaves exactly one wait pending;
in every state reached from construction by any sequence of steps (deadline
passing, firings with or without the cancellation indication, `set_timer`,
`shutdown`, `on_message`, `on_link_up`, `on_link_down`) at most one wait is pending;
a non-cancelled firing leaves exactly one pending; a cancelled firing leaves the
number pending as it was, and that number is 0 whenever the sequence has no
`set_timer` step of its own (the timer being set only by construction and by
non-cancelled firings). -/
theorem timer_invariant (ping_frequency : Nat) (latency_warn_threshold : Int)
    (es : List Event) (s : HeartbeatService)
    (hrun : run (construct ping_frequency latency_warn_threshold) es = some s) :
    (construct ping_frequency latency_warn_threshold).timer_.pending = 1 ∧
    s.timer_.pending ≤ 1 ∧
    (∀ (ec : error_code) (time : Int) (s1 : HeartbeatService),
      step s (Event.fire ec time) = some s1 → ec.is_set = false → s1.timer_.pending = 1) ∧
    (∀ (ec : error_code) (time : Int) (s1 : HeartbeatService),
      step s (Event.fire ec time) = some s1 → ec.is_set = true →
        s1.timer_.pending = s.timer_.pending) ∧
    ((∀ e ∈ es, e ≠ Event.set_timer) →
      ∀ (ec : error_code) (time : Int) (s1 : HeartbeatService),
        step s (Event.fire ec time) = some s1 → ec.is_set = true → s1.timer_.pending = 0) := by
  have h0 : (construct ping_frequency latency_warn_threshold).timer_ =
      { pending := 1, aborted := 0, expired := 0 } := by
    simp [construct, set_timer, Timer.expires_from_now, Timer.cancel, Timer.async_wait]
  refine ⟨by rw [h0], ?_, ?_, ?_, ?_⟩
  · exact run_pending_le es _ s hrun (by rw [h0])
  · intro ec time s1 h hec
    exact fire_clear_pending s s1 ec time h hec
  · intro ec time s1 h hec
    exact (fire_set_pending s s1 ec time h hec).1
  · intro hes ec time s1 h hec
    have htot := run_total_le es _ s hrun hes (by rw [h0]; decide)
    obtain ⟨hp, ha⟩ := fire_set_pending s s1 ec time h hec
    omega

/-- Witness for C8: a firing, a shutdown, then the cancelled firing. -/
theorem timer_invariant_witness :
    run (construct 20 1000)
      [Event.on_link_up sample_link, Event.timer_expired, Event.fire ⟨0⟩ 20000, Event.shutdown]
      = some { PING_FREQUENCY := 20, LATENCY_WARN_THRESHOLD := 1000, peers_ := [sample_link],
               timer_ := { pending := 0, aborted := 1, expired := 0 },
               calls := [Call.expires_from_now 20, Call.async_wait,
                 Call.send sample_link (ping_envelope 20000),
                 Call.expires_from_now 20, Call.async_wait, Call.cancel] } ∧
    ∀ s1 : HeartbeatService,
      step { PING_FREQUENCY := 20, LATENCY_WARN_THRESHOLD := 1000, peers_ := [sample_link],
             timer_ := { pending := 0, aborted := 1, expired := 0 },
             calls := [Call.expires_from_now 20, Call.async_wait,
               Call.send sample_link (ping_envelope 20000),
               Call.expires_from_now 20, Call.async_wait, Call.cancel] }
        (Event.fire ⟨125⟩ 20001) = some s1 → s1.timer_.pending = 0 :=
  ⟨by decide, fun s1 h =>
    (timer_invariant 20 1000
      [Event.on_link_up sample_link, Event.timer_expired, Event.fire ⟨0⟩ 20000, Event.shutdown]
      _ (by decide)).2.2.2.2 (by decide) ⟨125⟩ 20001 s1 h (by decide)⟩

end Ember.Spark
